import Mathlib

/-!
# Splash image table (`splash_image.h`)

The header declares two `uint16_t` dimension constants and one `uint16_t`
array whose bound is their product and whose initialiser is `{0}`:

    const uint16_t SPLASH_WIDTH = 320;
    const uint16_t SPLASH_HEIGHT = 240;
    const uint16_t splashImage[SPLASH_WIDTH * SPLASH_HEIGHT] PROGMEM = {0};

Machine integers are natural numbers with explicit reduction modulo a power
of two; the array is a list of such numbers.
-/

namespace SplashImage

/-! ## Embedding -/

/-- Conversion of an integer constant to the type uint16_t: the value is
reduced modulo 2^16. -/
def toUint16 (n : Nat) : Nat := n % 2 ^ 16

/-- Membership in the value range of uint16_t. -/
def isUint16 (n : Nat) : Bool := decide (n < 2 ^ 16)

/-- Source line 7: `const uint16_t SPLASH_WIDTH = 320;`. -/
def SPLASH_WIDTH : Nat := toUint16 320

/-- Source line 8: `const uint16_t SPLASH_HEIGHT = 240;`. -/
def SPLASH_HEIGHT : Nat := toUint16 240

/-- Aggregate initialisation of an array `uint16_t a[n] = {v0, v1, ...}`.
The listed values fill the leading elements in order and every element left
without an initialiser is zero. The declaration is ill-formed (no array,
`none`) when the brace list holds more values than the array has elements or
holds a constant outside the range of uint16_t (a narrowing conversion). -/
def aggregateInit (n : Nat) (init : List Nat) : Option (List Nat) :=
  if init.length ≤ n ∧ init.all isUint16 = true then
    some (init ++ List.replicate (n - init.length) 0)
  else
    none

/-- Source line 9 with the brace list left open: the array declared with the
bound `SPLASH_WIDTH * SPLASH_HEIGHT` and initialised from `init`. The source
comment asks for the contents to be replaced by a converted RGB565 image; that
edit changes `init` and nothing else. The operands of the bound are promoted to
`int` before the multiplication, so on a target whose `int` holds the product
the bound is the exact product (narrower widths are examined through
`arrayBoundAt`). -/
def splashImageWith (init : List Nat) : Option (List Nat) :=
  aggregateInit (SPLASH_WIDTH * SPLASH_HEIGHT) init

/-- Source line 9: `const uint16_t splashImage[SPLASH_WIDTH * SPLASH_HEIGHT]
PROGMEM = {0};`. The brace list of the source is `{0}`; the declaration is
well-formed (`splashImageWith_placeholder`), so the default is never taken. -/
def splashImage : List Nat := (splashImageWith [0]).getD []

/-- The array bound `SPLASH_WIDTH * SPLASH_HEIGHT` of source line 9 when the
multiplication is carried out in an unsigned machine type of `w` bits: the
product reduced modulo 2^w. -/
def arrayBoundAt (w : Nat) : Nat := (SPLASH_WIDTH * SPLASH_HEIGHT) % 2 ^ w

/-! ## Basic facts about the embedding -/

theorem SPLASH_WIDTH_eq : SPLASH_WIDTH = 320 := by
  unfold SPLASH_WIDTH toUint16
  norm_num

theorem SPLASH_HEIGHT_eq : SPLASH_HEIGHT = 240 := by
  unfold SPLASH_HEIGHT toUint16
  norm_num

theorem bound_eq : SPLASH_WIDTH * SPLASH_HEIGHT = 76800 := by
  rw [SPLASH_WIDTH_eq, SPLASH_HEIGHT_eq]

/-- A well-formed aggregate initialisation yields exactly `n` elements. -/
theorem aggregateInit_length (n : Nat) (init img : List Nat)
    (h : aggregateInit n init = some img) : img.length = n := by
  unfold aggregateInit at h
  split at h
  · rename_i hc
    cases h
    simp only [List.length_append, List.length_replicate]
    omega
  · cases h

/-- A well-formed aggregate initialisation yields only uint16_t values. -/
theorem aggregateInit_range (n : Nat) (init img : List Nat)
    (h : aggregateInit n init = some img) : ∀ v ∈ img, v < 2 ^ 16 := by
  unfold aggregateInit at h
  split at h
  · rename_i hc
    cases h
    intro v hv
    rcases List.mem_append.mp hv with hv | hv
    · have := List.all_eq_true.mp hc.2 v hv
      simpa [isUint16] using this
    · rw [List.eq_of_mem_replicate hv]
      norm_num
  · cases h

/-- A brace list that fills the whole array is stored unchanged. -/
theorem aggregateInit_full (n : Nat) (init : List Nat) (hlen : init.length = n)
    (hr : ∀ v ∈ init, v < 2 ^ 16) : aggregateInit n init = some init := by
  unfold aggregateInit
  have hall : init.all isUint16 = true := by
    rw [List.all_eq_true]
    intro v hv
    simpa [isUint16] using hr v hv
  rw [if_pos ⟨by omega, hall⟩]
  simp [hlen]

/-- The declaration of the source is well-formed and denotes the all-zero
table of 76800 elements. -/
theorem splashImageWith_placeholder :
    splashImageWith [0] = some (List.replicate 76800 0) := by
  unfold splashImageWith aggregateInit
  rw [bound_eq]
  have hc : [0].length ≤ 76800 ∧ [0].all isUint16 = true := by
    constructor
    · simp
    · simp [isUint16]
  rw [if_pos hc]
  have h1 : (76800 : Nat) - [0].length = 76799 := by decide
  have h2 : (76800 : Nat) = 76799 + 1 := by decide
  rw [h1, h2, List.replicate_succ]
  rfl

theorem splashImage_eq : splashImage = List.replicate 76800 0 := by
  unfold splashImage
  rw [splashImageWith_placeholder]
  rfl

theorem splashImage_length : splashImage.length = 76800 := by
  rw [splashImage_eq, List.length_replicate]

theorem splashImage_getElem? (i : Nat) :
    splashImage[i]? = if i < 76800 then some 0 else none := by
  rw [splashImage_eq]
  split
  · rename_i h
    have hl : i < (List.replicate 76800 0).length := by
      rw [List.length_replicate]
      exact h
    rw [List.getElem?_eq_getElem hl, List.getElem_replicate]
  · rename_i h
    apply List.getElem?_eq_none
    rw [List.length_replicate]
    omega

/-- The array of the source is the value of its own well-formed declaration. -/
theorem splashImageWith_source : splashImageWith [0] = some splashImage := by
  rw [splashImage_eq, splashImageWith_placeholder]

/-! ## Dimensions and element count -/

/-- C1: the declared element count of splashImage equals
SPLASH_WIDTH * SPLASH_HEIGHT, and for the given constants that count is
exactly 76800, which is 320 * 240. -/
theorem splashImage_count_eq_product :
    splashImage.length = SPLASH_WIDTH * SPLASH_HEIGHT ∧
    splashImage.length = 76800 ∧
    SPLASH_WIDTH * SPLASH_HEIGHT = 320 * 240 := by
  refine ⟨?_, splashImage_length, ?_⟩
  · exact aggregateInit_length _ _ _ splashImageWith_source
  · rw [bound_eq]

/-- C2: the dimension constants have the values SPLASH_WIDTH = 320 and
SPLASH_HEIGHT = 240, and each lies in the range of the unsigned 16-bit type
(below 65536). -/
theorem dimension_constants_values :
    SPLASH_WIDTH = 320 ∧ SPLASH_HEIGHT = 240 ∧
    SPLASH_WIDTH < 65536 ∧ SPLASH_HEIGHT < 65536 ∧
    isUint16 SPLASH_WIDTH = true ∧ isUint16 SPLASH_HEIGHT = true := by
  refine ⟨SPLASH_WIDTH_eq, SPLASH_HEIGHT_eq, ?_, ?_, ?_, ?_⟩
  · rw [SPLASH_WIDTH_eq]
    decide
  · rw [SPLASH_HEIGHT_eq]
    decide
  · rw [SPLASH_WIDTH_eq]
    decide
  · rw [SPLASH_HEIGHT_eq]
    decide

/-! ## Bounds-checked reads -/

/-- C3: a bounds-checked read of splashImage at index i succeeds exactly when
i < SPLASH_WIDTH * SPLASH_HEIGHT; the read at 76799 succeeds, the read at 76800
is out of range, and no index of the iteration 0..width*height takes the
out-of-range branch. -/
theorem checked_read_in_range_iff :
    (∀ i : Nat, (splashImage[i]?).isSome = true ↔ i < SPLASH_WIDTH * SPLASH_HEIGHT) ∧
    (splashImage[76799]?).isSome = true ∧
    splashImage[76800]? = none ∧
    (∀ i ∈ List.range (SPLASH_WIDTH * SPLASH_HEIGHT), splashImage[i]? ≠ none) := by
  refine ⟨?_, ?_, ?_, ?_⟩
  · intro i
    rw [splashImage_getElem?, bound_eq]
    by_cases h : i < 76800
    · simp [h]
    · simp [h]
  · rw [splashImage_getElem?]
    rfl
  · rw [splashImage_getElem?]
    rfl
  · intro i hi
    rw [bound_eq] at hi
    have h : i < 76800 := List.mem_range.mp hi
    rw [splashImage_getElem?, if_pos h]
    exact Option.some_ne_none 0

/-- The iteration 0..width*height of C3 at the index 5: the read is in range. -/
theorem checked_read_in_range_iff_witness :
    5 ∈ List.range (SPLASH_WIDTH * SPLASH_HEIGHT) ∧ splashImage[5]? ≠ none :=
  have h : 5 ∈ List.range (SPLASH_WIDTH * SPLASH_HEIGHT) := by
    rw [bound_eq]
    exact List.mem_range.mpr (by decide)
  ⟨h, checked_read_in_range_iff.2.2.2 5 h⟩

/-! ## Contents -/

/-- C4: in the placeholder state every element of splashImage is zero: for
every index i below the buffer length the element at i is 0. -/
theorem placeholder_all_zero (i : Nat) (h : i < splashImage.length) :
    splashImage[i] = 0 := by
  have h1 : splashImage[i]? = some splashImage[i] := List.getElem?_eq_getElem h
  rw [splashImage_getElem?] at h1
  rw [splashImage_length] at h
  rw [if_pos h] at h1
  exact (Option.some.inj h1).symm

/-- The last element of the table, index 76799, is zero. -/
theorem placeholder_all_zero_witness :
    ∃ h : 76799 < splashImage.length, splashImage[76799] = 0 :=
  have h : 76799 < splashImage.length := by
    rw [splashImage_length]
    decide
  ⟨h, placeholder_all_zero 76799 h⟩

/-- C5: every element of splashImage is a valid 16-bit unsigned value: for
every index i below the buffer length the element at i lies in 0..65535. -/
theorem elements_are_uint16 (i : Nat) (h : i < splashImage.length) :
    0 ≤ splashImage[i] ∧ splashImage[i] ≤ 65535 ∧ isUint16 splashImage[i] = true := by
  have hmem : splashImage[i] ∈ splashImage := List.getElem_mem h
  have hr := aggregateInit_range _ _ _ splashImageWith_source _ hmem
  refine ⟨Nat.zero_le _, by omega, ?_⟩
  simpa [isUint16] using hr

/-- The element at index 12345 lies in 0..65535. -/
theorem elements_are_uint16_witness :
    ∃ h : 12345 < splashImage.length,
      0 ≤ splashImage[12345] ∧ splashImage[12345] ≤ 65535 ∧
      isUint16 splashImage[12345] = true :=
  have h : 12345 < splashImage.length := by
    rw [splashImage_length]
    decide
  ⟨h, elements_are_uint16 12345 h⟩

/-! ## Replacing the placeholder by image data -/

/-- C6: replacing the contents of splashImage by image data of the declared
length leaves the dimension constants unchanged: for every sequence of 76800
unsigned 16-bit values put in the brace list, the declaration is well-formed
and holds exactly that data, SPLASH_WIDTH and SPLASH_HEIGHT are still 320 and
240, and the buffer length still equals their product. -/
theorem replace_contents_keeps_dimensions (data : List Nat)
    (hlen : data.length = 76800) (hval : ∀ v ∈ data, v < 65536) :
    ∃ img, splashImageWith data = some img ∧ img = data ∧
      SPLASH_WIDTH = 320 ∧ SPLASH_HEIGHT = 240 ∧
      img.length = SPLASH_WIDTH * SPLASH_HEIGHT ∧
      img.length = splashImage.length := by
  have hfull : splashImageWith data = some data := by
    unfold splashImageWith
    apply aggregateInit_full
    · rw [hlen, bound_eq]
    · intro v hv
      have := hval v hv
      omega
  refine ⟨data, hfull, rfl, SPLASH_WIDTH_eq, SPLASH_HEIGHT_eq, ?_, ?_⟩
  · rw [hlen, bound_eq]
  · rw [hlen, splashImage_length]

/-- A full-screen image of the RGB565 colour 0xF800 (63488, pure red) in place
of the placeholder: the constants and the length are as before. -/
theorem replace_contents_keeps_dimensions_witness :
    (List.replicate 76800 63488).length = 76800 ∧
    (∀ v ∈ List.replicate 76800 63488, v < 65536) ∧
    ∃ img, splashImageWith (List.replicate 76800 63488) = some img ∧
      img = List.replicate 76800 63488 ∧
      SPLASH_WIDTH = 320 ∧ SPLASH_HEIGHT = 240 ∧
      img.length = SPLASH_WIDTH * SPLASH_HEIGHT ∧
      img.length = splashImage.length :=
  have hlen : (List.replicate 76800 63488).length = 76800 := List.length_replicate _ _
  have hval : ∀ v ∈ List.replicate 76800 63488, v < 65536 := by
    intro v hv
    rw [List.eq_of_mem_replicate hv]
    decide
  ⟨hlen, hval, replace_contents_keeps_dimensions _ hlen hval⟩

/-! ## Width of the multiplication in the array bound -/

/-- C7: the product SPLASH_WIDTH * SPLASH_HEIGHT does not fit the unsigned
16-bit type of its operands: it exceeds 65535 and reduced modulo 2^16 it is
11264; the array bound evaluated at width w equals the declared count 76800
exactly when w is greater than 16; and some valid index of the array is not the
value of any uint16_t. -/
theorem product_exceeds_uint16 :
    65535 < SPLASH_WIDTH * SPLASH_HEIGHT ∧
    isUint16 (SPLASH_WIDTH * SPLASH_HEIGHT) = false ∧
    toUint16 (SPLASH_WIDTH * SPLASH_HEIGHT) = 11264 ∧
    arrayBoundAt 16 = 11264 ∧
    (∀ w : Nat, arrayBoundAt w = splashImage.length ↔ 16 < w) ∧
    (∃ j : Nat, j < splashImage.length ∧ ∀ i : Nat, toUint16 i ≠ j) := by
  refine ⟨?_, ?_, ?_, ?_, ?_, ?_⟩
  · rw [bound_eq]
    decide
  · rw [bound_eq]
    decide
  · rw [bound_eq]
    decide
  · unfold arrayBoundAt
    rw [bound_eq]
    decide
  · intro w
    unfold arrayBoundAt
    rw [bound_eq, splashImage_length]
    constructor
    · intro h
      by_contra hw
      have hw16 : w ≤ 16 := by omega
      have hpow : 2 ^ w ≤ 2 ^ 16 := Nat.pow_le_pow_right (by decide) hw16
      have hpos : 0 < 2 ^ w := Nat.pow_pos (by decide)
      have hlt : 76800 % 2 ^ w < 2 ^ w := Nat.mod_lt _ hpos
      have h16 : (2 : Nat) ^ 16 = 65536 := by decide
      omega
    · intro hw
      have hpow : 2 ^ 17 ≤ 2 ^ w := Nat.pow_le_pow_right (by decide) hw
      have h17 : (2 : Nat) ^ 17 = 131072 := by decide
      exact Nat.mod_eq_of_lt (by omega)
  · refine ⟨65536, ?_, ?_⟩
    · rw [splashImage_length]
      decide
    · intro i
      unfold toUint16
      have hlt : i % 2 ^ 16 < 2 ^ 16 := Nat.mod_lt _ (by decide)
      have h16 : (2 : Nat) ^ 16 = 65536 := by decide
      omega

/-- The bound of C7 evaluated at the width 32 is the declared count, and 32 is
greater than 16. -/
theorem product_exceeds_uint16_witness :
    16 < 32 ∧ arrayBoundAt 32 = splashImage.length :=
  ⟨by decide, (product_exceeds_uint16.2.2.2.2.1 32).mpr (by decide)⟩

/-! ## Row-major addressing -/

/-- C8: row-major pixel addressing stays in bounds and is one-to-one: for
x < SPLASH_WIDTH and y < SPLASH_HEIGHT the index y * SPLASH_WIDTH + x is below
the buffer length, distinct pairs (x, y) give distinct indices, and every index
below the buffer length is reached by exactly one such pair. -/
theorem row_major_index_bijective :
    (∀ x y : Nat, x < SPLASH_WIDTH → y < SPLASH_HEIGHT →
      y * SPLASH_WIDTH + x < splashImage.length) ∧
    (∀ x y x2 y2 : Nat, x < SPLASH_WIDTH → y < SPLASH_HEIGHT →
      x2 < SPLASH_WIDTH → y2 < SPLASH_HEIGHT → (x, y) ≠ (x2, y2) →
      y * SPLASH_WIDTH + x ≠ y2 * SPLASH_WIDTH + x2) ∧
    (∀ i : Nat, i < splashImage.length →
      ∃! p : Nat × Nat, p.1 < SPLASH_WIDTH ∧ p.2 < SPLASH_HEIGHT ∧
        p.2 * SPLASH_WIDTH + p.1 = i) := by
  rw [SPLASH_WIDTH_eq, SPLASH_HEIGHT_eq, splashImage_length]
  refine ⟨?_, ?_, ?_⟩
  · intro x y hx hy
    omega
  · intro x y x2 y2 hx hy hx2 hy2 hne heq
    apply hne
    have h1 : x = x2 := by omega
    have h2 : y = y2 := by omega
    rw [h1, h2]
  · intro i hi
    refine ⟨(i % 320, i / 320), ⟨?_, ?_, ?_⟩, ?_⟩
    · show i % 320 < 320
      omega
    · show i / 320 < 240
      omega
    · show i / 320 * 320 + i % 320 = i
      omega
    · rintro ⟨x, y⟩ ⟨hx, hy, hxy⟩
      have hx1 : x < 320 := hx
      have hy1 : y < 240 := hy
      have hxy1 : y * 320 + x = i := hxy
      have h1 : x = i % 320 := by omega
      have h2 : y = i / 320 := by omega
      rw [h1, h2]

/-- The last pixel of the screen, x = 319 and y = 239, has an index below the
buffer length. -/
theorem row_major_index_bijective_witness :
    319 < SPLASH_WIDTH ∧ 239 < SPLASH_HEIGHT ∧
    239 * SPLASH_WIDTH + 319 < splashImage.length :=
  have hx : 319 < SPLASH_WIDTH := by
    rw [SPLASH_WIDTH_eq]
    decide
  have hy : 239 < SPLASH_HEIGHT := by
    rw [SPLASH_HEIGHT_eq]
    decide
  ⟨hx, hy, row_major_index_bijective.1 319 239 hx hy⟩

end SplashImage
